import Mathlib

/-!
# Verification of `ref-fvm`'s `DefaultMachine` (fvm/src/machine/default.rs)

A shallow embedding of the machine core: the buffered content-addressed
store, the actor state tree, machine construction/validation, fund
transfer, and event commitment, together with theorems settling the
specification claims about them.

Code present in `src/` (the file `fvm/src/machine/default.rs`) is
translated directly.  Collaborators that live elsewhere in the repository
(the state tree, the buffered blockstore, the AMT, `TokenAmount`,
`EMPTY_ARR_CID`) are modelled from the specification; each such
definition carries a doc comment starting with `Modelled from the spec:`.
-/

set_option autoImplicit false

namespace RefFvm

/-- Numeric actor identifier (`fvm_shared::ActorID`). -/
abbrev ActorID := Nat

/-- Content identifiers.  Modelled from the spec: a content identifier is a
self-describing hash-based reference to a block of bytes; we represent it
as a natural number. -/
abbrev Cid := Nat

/-- Modelled from the spec: `TokenAmount` is an arbitrary-precision signed
token quantity (it can be negative, which `transfer` must reject). -/
abbrev TokenAmount := Int

/-- Modelled from the spec: an actor record — code reference, state root,
sequence number and token balance (`crate::state_tree::ActorState`, not
under `src/`). -/
structure ActorState where
  code : Cid
  state : Cid
  sequence : Nat
  balance : TokenAmount
deriving DecidableEq, Repr

/-- Recoverable error kinds used by the machine's mutation API
(`fvm_shared::error::ErrorNumber`, restricted to the kinds `default.rs`
produces). -/
inductive ErrorNumber
  | illegalArgument
  | insufficientFunds
  | notFound
deriving DecidableEq, Repr

/-- Modelled from the spec: the kernel `Result` error side — either a
classified syscall error carrying an `ErrorNumber`, or a fatal error. -/
inductive ExecError
  | syscall (e : ErrorNumber)
  | fatal
deriving DecidableEq, Repr

/-- Modelled from the spec: `ActorState::deduct_funds` re-checks
non-negativity as a defensive invariant; deduction below zero is a fatal
internal error. -/
def ActorState.deduct_funds (a : ActorState) (v : TokenAmount) :
    Except ExecError ActorState :=
  if a.balance - v < 0 then .error .fatal
  else .ok { a with balance := a.balance - v }

/-- Modelled from the spec: `ActorState::deposit_funds` adds `v` to the
balance (infallible). -/
def ActorState.deposit_funds (a : ActorState) (v : TokenAmount) : ActorState :=
  { a with balance := a.balance + v }

/-! ## Block store model

Modelled from the spec §4.1/§6: the underlying store boundary is
`has`, `get`, `put`, `flush`.  A block's decoded content is represented
directly (the serialization codec is out of scope per the spec). -/

/-- A stamped event emitted during message execution
(`fvm_shared::event::StampedEvent`); its payload is opaque to this core. -/
structure StampedEvent where
  emitter : ActorID
  payload : List Nat
deriving DecidableEq, Repr

/-- Modelled from the spec: the decoded content of a block.  The codec is
out of scope, so blocks carry their decoded shape directly: raw bytes, an
events AMT node, a state-tree snapshot, a manifest `(version, cid)` pair,
a manifest table, or a system-actor state record. -/
inductive BlockData
  | bytes (bs : List Nat)
  | amt (bitWidth : Nat) (entries : List (Nat × StampedEvent))
  | stateRoot (entries : List (ActorID × ActorState))
  | manifestPair (version : Nat) (cid : Cid)
  | manifestTable (table : List (Nat × Cid))
  | systemState (builtin_actors : Cid)
deriving DecidableEq, Repr

/-- Modelled from the spec: a simple injective-enough numeric encoding of a
list, used to build reference content identifiers. -/
def encodeList (l : List Nat) : Nat :=
  l.foldl (fun acc n => Nat.pair acc n + 1) 0

/-- Modelled from the spec: numeric encoding of an actor record. -/
def encodeActorState (a : ActorState) : Nat :=
  Nat.pair a.code (Nat.pair a.state (Nat.pair a.sequence
    (Nat.pair (if a.balance < 0 then 1 else 0) a.balance.natAbs)))

/-- Modelled from the spec: numeric encoding of a stamped event. -/
def encodeEvent (e : StampedEvent) : Nat :=
  Nat.pair e.emitter (encodeList e.payload)

/-- Modelled from the spec: the reference content-identifier function — a
pure hash of content plus codec tag, so identical content always yields
the same identifier. -/
def referenceCid : BlockData → Cid
  | .bytes bs => Nat.pair 0 (encodeList bs)
  | .amt w entries =>
      Nat.pair 1 (Nat.pair w
        (encodeList (entries.map fun p => Nat.pair p.1 (encodeEvent p.2))))
  | .stateRoot entries =>
      Nat.pair 2 (encodeList (entries.map fun p => Nat.pair p.1 (encodeActorState p.2)))
  | .manifestPair v c => Nat.pair 3 (Nat.pair v c)
  | .manifestTable t => Nat.pair 4 (encodeList (t.map fun p => Nat.pair p.1 p.2))
  | .systemState c => Nat.pair 5 c

/-- Modelled from the spec: an underlying block store supplied by the
caller.  It is an arbitrary trait implementation, so it carries its own
content-identifier function `cidOf` (a correct implementation uses the
reference hash, but the machine cannot assume that). -/
structure Blockstore where
  cidOf : BlockData → Cid
  contents : List (Cid × BlockData)

/-- `has(id)`: whether the store holds a block with identifier `c`. -/
def Blockstore.has (s : Blockstore) (c : Cid) : Bool :=
  s.contents.any fun p => p.1 == c

/-- `get(id)` on the underlying store. -/
def Blockstore.get (s : Blockstore) (c : Cid) : Option BlockData :=
  (s.contents.find? fun p => p.1 == c).map (·.2)

/-- `put(hash-kind, data) -> id`: stages a block under the identifier the
implementation computes for it; puts are idempotent. -/
def Blockstore.put (s : Blockstore) (d : BlockData) : Cid × Blockstore :=
  let c := s.cidOf d
  (c, if s.has c then s else { s with contents := (c, d) :: s.contents })

/-- `put_keyed`: record a block under an already-known identifier (used
when the buffered store flushes its overlay downstream). -/
def Blockstore.put_keyed (s : Blockstore) (c : Cid) (d : BlockData) : Blockstore :=
  if s.has c then s else { s with contents := (c, d) :: s.contents }

/-- Modelled from the spec §4.1: the buffered store wraps an underlying
store with a write-buffered overlay; all puts go to the overlay until an
explicit flush of a root commits reachable blocks downstream. -/
structure BufferedBlockstore where
  base : Blockstore
  buffer : List (Cid × BlockData)

/-- `BufferedBlockstore::new`: empty overlay over the given store. -/
def BufferedBlockstore.new (base : Blockstore) : BufferedBlockstore :=
  { base := base, buffer := [] }

/-- Buffered `get`: overlay first, falling through to the underlying
store on a miss. -/
def BufferedBlockstore.get (s : BufferedBlockstore) (c : Cid) : Option BlockData :=
  match (s.buffer.find? fun p => p.1 == c).map (·.2) with
  | some d => some d
  | none => s.base.get c

/-- Buffered `put`: the buffered store computes the (reference) content
identifier itself and stages the block in the overlay. -/
def BufferedBlockstore.put (s : BufferedBlockstore) (d : BlockData) :
    Cid × BufferedBlockstore :=
  let c := referenceCid d
  (c, { s with buffer := (c, d) :: s.buffer })

/-- Modelled from the spec: `flush(root)` walks the block graph from
`root` and commits every reachable overlay block into the underlying
store; it fails (fatally, via `or_fatal`) if the root resolves in neither
overlay nor underlying store.  Block contents here carry no further
links, so the reachable closure of `root` is `root` itself. -/
def BufferedBlockstore.flushRoot (s : BufferedBlockstore) (root : Cid) :
    Except ExecError BufferedBlockstore :=
  match (s.buffer.find? fun p => p.1 == root).map (·.2) with
  | some d => .ok { s with base := s.base.put_keyed root d }
  | none => if s.base.has root then .ok s else .error .fatal

/-! ## Actor state tree

Modelled from the spec §4.2 (`crate::state_tree::StateTree`, not under
`src/`): a mapping from `ActorID` to `ActorState` over a buffered store,
with point lookup, point update and whole-tree flush. -/

/-- Look up the first entry for `id` in an association list. -/
def getEntry : List (ActorID × ActorState) → ActorID → Option ActorState
  | [], _ => none
  | (k, v) :: rest, id => if k = id then some v else getEntry rest id

/-- Replace the first entry for `id`, or append a fresh one. -/
def setEntry (l : List (ActorID × ActorState)) (id : ActorID) (a : ActorState) :
    List (ActorID × ActorState) :=
  match l with
  | [] => [(id, a)]
  | (k, v) :: rest =>
      if k = id then (id, a) :: rest else (k, v) :: setEntry rest id a

/-- Modelled from the spec: the state tree — in-memory view of the actor
records plus the buffered store it persists through. -/
structure StateTree where
  store : BufferedBlockstore
  entries : List (ActorID × ActorState)

/-- `get_actor(id) -> Option<ActorState>`. -/
def StateTree.get_actor (t : StateTree) (id : ActorID) : Option ActorState :=
  getEntry t.entries id

/-- `set_actor(id, state)`: stage a record write. -/
def StateTree.set_actor (t : StateTree) (id : ActorID) (a : ActorState) : StateTree :=
  { t with entries := setEntry t.entries id a }

/-- Modelled from the spec: `new_from_root` opens a tree view at `root`;
it fails if the root does not resolve to (decode as) a state-tree node. -/
def StateTree.new_from_root (store : BufferedBlockstore) (root : Cid) :
    Option StateTree :=
  match store.get root with
  | some (.stateRoot entries) => some { store := store, entries := entries }
  | _ => none

/-- Modelled from the spec: the canonical order of the tree's final
key/value pairs — the flushed root is a pure function of contents,
independent of mutation order, so entries are sorted by actor id (the
first occurrence of a key is its current value). -/
def canonicalEntries (l : List (ActorID × ActorState)) :
    List (ActorID × ActorState) :=
  (l.foldl (fun acc p => if (getEntry acc p.1).isSome then acc else acc ++ [p]) []).mergeSort
    (fun p q => p.1 ≤ q.1)

/-- Modelled from the spec: `StateTree::flush` serializes the final
key/value pairs into a root block, stages it in the buffered store, and
returns the new root identifier. -/
def StateTree.flush (t : StateTree) : Cid × StateTree :=
  let r := t.store.put (.stateRoot (canonicalEntries t.entries))
  (r.1, { t with store := r.2 })

/-! ## AMT (events trie)

Modelled from the spec §4.5 (`fvm_ipld_amt::Amt`, not under `src/`): a
fixed-bit-width indexed trie keyed by sequential position. -/

/-- Modelled from the spec: an in-memory AMT before flushing — its bit
width and the (position, value) pairs set so far. -/
structure Amt where
  bitWidth : Nat
  entries : List (Nat × StampedEvent)

/-- `Amt::new_with_bit_width`. -/
def Amt.new_with_bit_width (w : Nat) : Amt := { bitWidth := w, entries := [] }

/-- `Amt::batch_set`: inserts the values at sequential positions starting
from the current count, in the given order. -/
def Amt.batch_set (a : Amt) (vals : List StampedEvent) : Amt :=
  { a with
    entries := a.entries ++ vals.enum.map fun p => (a.entries.length + p.1, p.2) }

/-- Modelled from the spec: `Amt::flush` serializes the trie into the
given (buffered) store and returns its root content identifier. -/
def Amt.flush (a : Amt) (s : BufferedBlockstore) : Cid × BufferedBlockstore :=
  s.put (.amt a.bitWidth a.entries)

/-! ## Machine construction (`DefaultMachine::new`, `put_empty_blocks`) -/

/-- `EVENTS_AMT_BITWIDTH` from `default.rs`. -/
def EVENTS_AMT_BITWIDTH : Nat := 5

/-- The pre-serialized block containing the empty array
(`EMPTY_ARRAY_BLOCK` in `default.rs`: the DAG-CBOR encoding of `[]`,
which is the single byte `0x80`). -/
def EMPTY_ARRAY_BLOCK : BlockData := .bytes [128]

/-- Modelled from the spec: the precomputed well-known identifier
`fvm_shared::EMPTY_ARR_CID` — by the wire contract it equals the
reference content identifier of the canonical empty-array block. -/
def EMPTY_ARR_CID : Cid := referenceCid EMPTY_ARRAY_BLOCK

/-- Modelled from the spec: the built-in actors manifest — an immutable
table of actor-kind to code identifier, with its schema version
(`crate::machine::Manifest`, not under `src/`). -/
structure Manifest where
  version : Nat
  table : List (Nat × Cid)
deriving DecidableEq, Repr

/-- Modelled from the spec: `Manifest::load` reads the manifest table at
the given identifier; failure to resolve it fails the load. -/
def Manifest.load (s : BufferedBlockstore) (c : Cid) (version : Nat) :
    Option Manifest :=
  match s.get c with
  | some (.manifestTable t) => some { version := version, table := t }
  | _ => none

/-- Modelled from the spec: `SystemActorState::load` reads the system
actor's record from the state tree and decodes its state blob, whose
`builtin_actors` field names the manifest. -/
def SystemActorState.load (t : StateTree) : Option Cid :=
  match t.get_actor 0 with
  | some a =>
      match t.store.get a.state with
      | some (.systemState c) => some c
      | _ => none
  | none => none

/-- `MachineContext`: the immutable execution context snapshot. -/
structure MachineContext where
  epoch : Int
  base_fee : TokenAmount
  network_version : Nat
  initial_state_root : Cid
  builtin_actors_override : Option Cid
deriving DecidableEq, Repr

/-- Lower bound of `SUPPORTED_VERSIONS` in `default.rs` (the default,
non-"hyperspace" build): `NetworkVersion::V18`. -/
def SUPPORTED_VERSIONS_LO : Nat := 18

/-- Upper bound of `SUPPORTED_VERSIONS` in `default.rs` (the default,
non-"hyperspace" build): `NetworkVersion::V18`. -/
def SUPPORTED_VERSIONS_HI : Nat := 18

/-- `SUPPORTED_VERSIONS.contains(nv)`: the supported closed interval. -/
def supportedVersion (nv : Nat) : Prop :=
  SUPPORTED_VERSIONS_LO ≤ nv ∧ nv ≤ SUPPORTED_VERSIONS_HI

instance (nv : Nat) : Decidable (supportedVersion nv) := by
  unfold supportedVersion; infer_instance

/-- Errors produced by `DefaultMachine::new` (plain construction
failures; `assertFailed` models the `debug_assert!` abort in
`put_empty_blocks`). -/
inductive NewError
  | unsupportedVersion
  | missingInitialRoot
  | assertFailed
  | stateTreeLoad
  | manifestLoad
deriving DecidableEq, Repr

/-- `put_empty_blocks`: put the canonical empty-array block into the
(underlying, caller-supplied) store.  The returned identifier is compared
to `EMPTY_ARR_CID` by a `debug_assert!`: when debug assertions are
compiled in (`debugAssertions = true`) a mismatch aborts (the put has
already happened); in a release build the check is compiled out.  The
first component is the store after the call. -/
def put_empty_blocks (debugAssertions : Bool) (s : Blockstore) :
    Blockstore × Option NewError :=
  let r := s.put EMPTY_ARRAY_BLOCK
  (r.2, if debugAssertions ∧ r.1 ≠ EMPTY_ARR_CID then some .assertFailed else none)

/-- The machine: context, externs (opaque, omitted), state tree over the
buffered store, built-in actors manifest, and the somewhat-unique id
string. -/
structure DefaultMachine where
  context : MachineContext
  state_tree : StateTree
  builtin_actors : Manifest
  id : String

/-- `DefaultMachine::new`.  The 16 random bytes drawn by `rand::random()`
are passed in as `randomness` (nondeterminism as an explicit input); the
base-32 rendering of the id is modelled by `toString`.  The second
component of the result is the underlying store as the caller's storage
medium stands after the call (on success it is the base of the machine's
buffered store). -/
def DefaultMachine.new (debugAssertions : Bool) (context : MachineContext)
    (blockstore : Blockstore) (randomness : List Nat) :
    Except NewError DefaultMachine × Blockstore :=
  if ¬ supportedVersion context.network_version then
    (.error .unsupportedVersion, blockstore)
  else if ¬ blockstore.has context.initial_state_root then
    (.error .missingInitialRoot, blockstore)
  else
    match put_empty_blocks debugAssertions blockstore with
    | (blockstore', some e) => (.error e, blockstore')
    | (blockstore', none) =>
      let bstore := BufferedBlockstore.new blockstore'
      match StateTree.new_from_root bstore context.initial_state_root with
      | none => (.error .stateTreeLoad, blockstore')
      | some state_tree =>
        let resolved : Option (Cid × Nat) :=
          match context.builtin_actors_override with
          | some manifest_cid =>
              match state_tree.store.get manifest_cid with
              | some (.manifestPair version cid) => some (cid, version)
              | _ => none
          | none =>
              match SystemActorState.load state_tree with
              | some c => some (c, 1)
              | none => none
        match resolved with
        | none => (.error .manifestLoad, blockstore')
        | some (builtin_actors_cid, manifest_version) =>
          match Manifest.load state_tree.store builtin_actors_cid manifest_version with
          | none => (.error .manifestLoad, blockstore')
          | some builtin_actors =>
            (.ok { context := context
                   state_tree := state_tree
                   builtin_actors := builtin_actors
                   id := toString context.epoch ++ "-" ++ toString randomness },
             state_tree.store.base)

/-! ## Machine mutation API (translated from the `Machine` impl in
`default.rs`).  Rust takes `&mut self` (or `&self` with an
interior-mutable store); each operation here returns the machine after
the call together with the call's result. -/

/-- `Machine::flush`: flush the state tree to obtain the new root, then
flush that root through the buffered store into the underlying store,
and return the root. -/
def DefaultMachine.flush (m : DefaultMachine) :
    DefaultMachine × Except ExecError Cid :=
  let r := m.state_tree.flush
  match r.2.store.flushRoot r.1 with
  | .ok store' =>
      ({ m with state_tree := { r.2 with store := store' } }, .ok r.1)
  | .error e => ({ m with state_tree := r.2 }, .error e)

/-- `Machine::transfer` (default.rs lines 199-238): reject negative
values; a missing sender is reported as insufficient funds; then the
balance check; then the self-transfer no-op; then a missing receiver is
reported as not-found; finally deduct, deposit, and stage both records. -/
def DefaultMachine.transfer (m : DefaultMachine) (fr toA : ActorID)
    (value : TokenAmount) : DefaultMachine × Except ExecError Unit :=
  if value < 0 then
    (m, .error (.syscall .illegalArgument))
  else
    match m.state_tree.get_actor fr with
    | none => (m, .error (.syscall .insufficientFunds))
    | some from_actor =>
      if from_actor.balance < value then
        (m, .error (.syscall .insufficientFunds))
      else if fr = toA then
        (m, .ok ())
      else
        match m.state_tree.get_actor toA with
        | none => (m, .error (.syscall .notFound))
        | some to_actor =>
          match from_actor.deduct_funds value with
          | .error e => (m, .error e)
          | .ok from_actor' =>
            let to_actor' := to_actor.deposit_funds value
            ({ m with state_tree :=
                (m.state_tree.set_actor fr from_actor').set_actor toA to_actor' },
             .ok ())

/-- `Machine::commit_events` (default.rs lines 240-265): empty input
yields no identifier; otherwise the events are batch-inserted, in order,
into a fresh AMT of bit width `EVENTS_AMT_BITWIDTH`, the AMT is flushed
to obtain its root, and that root is flushed through the buffered store
into the underlying store. -/
def DefaultMachine.commit_events (m : DefaultMachine)
    (events : List StampedEvent) :
    DefaultMachine × Except ExecError (Option Cid) :=
  if events.isEmpty then (m, .ok none)
  else
    let amt := (Amt.new_with_bit_width EVENTS_AMT_BITWIDTH).batch_set events
    let r := amt.flush m.state_tree.store
    match r.2.flushRoot r.1 with
    | .ok store' =>
        ({ m with state_tree := { m.state_tree with store := store' } },
         .ok (some r.1))
    | .error e =>
        ({ m with state_tree := { m.state_tree with store := r.2 } }, .error e)

/-- `Machine::machine_id`. -/
def DefaultMachine.machine_id (m : DefaultMachine) : String := m.id

/-! ## Derived notions used by the claims -/

/-- The sum of all actor balances recorded in a state tree. -/
def totalBalance (l : List (ActorID × ActorState)) : Int :=
  (l.map fun p => p.2.balance).sum

/-- Run a sequence of transfers, stopping at the first failure. -/
def runTransfers (m : DefaultMachine) :
    List (ActorID × ActorID × TokenAmount) →
    DefaultMachine × Except ExecError Unit
  | [] => (m, .ok ())
  | op :: rest =>
    let r := m.transfer op.1 op.2.1 op.2.2
    match r.2 with
    | .ok _ => runTransfers r.1 rest
    | .error e => (r.1, .error e)

/-- One call of the machine's mutation API. -/
inductive MachineOp
  | transferOp (fr toA : ActorID) (value : TokenAmount)
  | commitEventsOp (events : List StampedEvent)
  | flushOp
deriving Repr

/-- The observable result of one mutation call. -/
inductive OpOutput
  | transferred (r : Except ExecError Unit)
  | committed (r : Except ExecError (Option Cid))
  | flushed (r : Except ExecError Cid)
deriving Repr

/-- Drive a machine through a sequence of mutation calls, collecting
every observable output. -/
def runOps (m : DefaultMachine) : List MachineOp → DefaultMachine × List OpOutput
  | [] => (m, [])
  | op :: rest =>
    let step : DefaultMachine × OpOutput :=
      match op with
      | .transferOp fr toA v =>
          let r := m.transfer fr toA v
          (r.1, .transferred r.2)
      | .commitEventsOp events =>
          let r := m.commit_events events
          (r.1, .committed r.2)
      | .flushOp =>
          let r := m.flush
          (r.1, .flushed r.2)
    let r2 := runOps step.1 rest
    (r2.1, step.2 :: r2.2)

/-- Whether an `Except` is a success, as a boolean. -/
def exceptIsOk {ε α : Type} : Except ε α → Bool
  | .ok _ => true
  | .error _ => false

/-! ## Shared concrete fixtures used by witnesses and counterexamples -/

/-- An actor record with the given balance (other fields canonical). -/
def mkActor (bal : TokenAmount) : ActorState :=
  { code := 0, state := 0, sequence := 0, balance := bal }

/-- A well-behaved underlying store: reference hashing, holding a
state-tree snapshot at 5, a manifest pair at 6 and a manifest table
at 7. -/
def demoStore : Blockstore :=
  { cidOf := referenceCid
    contents := [(5, .stateRoot [(1, mkActor 10), (2, mkActor 3)]),
                 (6, .manifestPair 1 7), (7, .manifestTable [])] }

/-- A faulty underlying store: same contents as `demoStore`, but its
`put` implementation assigns every block the identifier 1. -/
def faultyStore : Blockstore :=
  { demoStore with cidOf := fun _ => 1 }

/-- A context accepted by construction against `demoStore`. -/
def demoContext : MachineContext :=
  { epoch := 0, base_fee := 100, network_version := 18,
    initial_state_root := 5, builtin_actors_override := some 6 }

/-- A machine over `demoStore` with the given actor records. -/
def demoMachine (entries : List (ActorID × ActorState)) : DefaultMachine :=
  { context := demoContext
    state_tree := { store := BufferedBlockstore.new demoStore, entries := entries }
    builtin_actors := { version := 1, table := [] }
    id := "0-demo" }

/-! ## Helper lemmas about the association-list state tree -/

theorem getEntry_setEntry_self (l : List (ActorID × ActorState)) (id : ActorID)
    (a : ActorState) : getEntry (setEntry l id a) id = some a := by
  induction l with
  | nil => simp [setEntry, getEntry]
  | cons p rest ih =>
    obtain ⟨k, v⟩ := p
    by_cases h : k = id <;> simp [setEntry, getEntry, h, ih]

theorem getEntry_setEntry_ne (l : List (ActorID × ActorState)) (id id' : ActorID)
    (a : ActorState) (h : id ≠ id') :
    getEntry (setEntry l id' a) id = getEntry l id := by
  have h' : ¬ id' = id := fun hc => h hc.symm
  induction l with
  | nil => simp [setEntry, getEntry, h']
  | cons p rest ih =>
    obtain ⟨k, v⟩ := p
    by_cases hk : k = id'
    · subst hk
      simp [setEntry, getEntry, h']
    · simp [setEntry, hk, getEntry, ih]

theorem totalBalance_nil : totalBalance [] = 0 := rfl

theorem totalBalance_cons (p : ActorID × ActorState)
    (l : List (ActorID × ActorState)) :
    totalBalance (p :: l) = p.2.balance + totalBalance l := by
  simp [totalBalance]

theorem totalBalance_setEntry (l : List (ActorID × ActorState)) (id : ActorID)
    (a b : ActorState) (h : getEntry l id = some a) :
    totalBalance (setEntry l id b) = totalBalance l - a.balance + b.balance := by
  induction l with
  | nil => simp [getEntry] at h
  | cons p rest ih =>
    obtain ⟨k, v⟩ := p
    by_cases hk : k = id
    · simp [getEntry, hk] at h
      subst h
      simp [setEntry, hk, totalBalance_cons]
      ring
    · simp [getEntry, hk] at h
      simp [setEntry, hk, totalBalance_cons, ih h]
      ring

/-! ## Equation lemmas for `transfer`, one per control path -/

theorem transfer_eq_neg (m : DefaultMachine) (fr toA : ActorID) (v : TokenAmount)
    (hv : v < 0) :
    m.transfer fr toA v = (m, .error (.syscall .illegalArgument)) := by
  simp [DefaultMachine.transfer, hv]

theorem transfer_eq_missing_sender (m : DefaultMachine) (fr toA : ActorID)
    (v : TokenAmount) (hv : ¬ v < 0) (h : m.state_tree.get_actor fr = none) :
    m.transfer fr toA v = (m, .error (.syscall .insufficientFunds)) := by
  simp [DefaultMachine.transfer, hv, h]

theorem transfer_eq_insufficient (m : DefaultMachine) (fr toA : ActorID)
    (v : TokenAmount) (fa : ActorState) (hv : ¬ v < 0)
    (h : m.state_tree.get_actor fr = some fa) (hb : fa.balance < v) :
    m.transfer fr toA v = (m, .error (.syscall .insufficientFunds)) := by
  simp [DefaultMachine.transfer, hv, h, hb]

theorem transfer_eq_self (m : DefaultMachine) (a : ActorID) (v : TokenAmount)
    (fa : ActorState) (hv : ¬ v < 0) (h : m.state_tree.get_actor a = some fa)
    (hb : ¬ fa.balance < v) :
    m.transfer a a v = (m, .ok ()) := by
  simp [DefaultMachine.transfer, hv, h, hb]

theorem transfer_eq_missing_receiver (m : DefaultMachine) (fr toA : ActorID)
    (v : TokenAmount) (fa : ActorState) (hv : ¬ v < 0)
    (h : m.state_tree.get_actor fr = some fa) (hb : ¬ fa.balance < v)
    (hne : fr ≠ toA) (ht : m.state_tree.get_actor toA = none) :
    m.transfer fr toA v = (m, .error (.syscall .notFound)) := by
  simp [DefaultMachine.transfer, hv, h, hb, hne, ht]

theorem transfer_eq_move (m : DefaultMachine) (fr toA : ActorID)
    (v : TokenAmount) (fa ta : ActorState) (hv : ¬ v < 0)
    (h : m.state_tree.get_actor fr = some fa) (hb : ¬ fa.balance < v)
    (hne : fr ≠ toA) (ht : m.state_tree.get_actor toA = some ta) :
    m.transfer fr toA v =
      ({ m with state_tree :=
          { m.state_tree with entries := (setEntry
              (setEntry m.state_tree.entries fr
                { fa with balance := fa.balance - v }) toA
              { ta with balance := ta.balance + v }) } },
       .ok ()) := by
  have hd : fa.deduct_funds v = .ok { fa with balance := fa.balance - v } := by
    have h2 : v ≤ fa.balance := not_lt.mp hb
    have h1 : (0 : Int) ≤ v := not_lt.mp hv
    unfold ActorState.deduct_funds
    rw [if_neg (by linarith)]
  simp [DefaultMachine.transfer, hv, h, hb, hne, ht, hd,
    ActorState.deposit_funds, StateTree.set_actor]

/-- Inversion on a successful transfer: it is either a self-transfer
no-op, or a genuine move between two existing actors with sufficient
funds. -/
theorem transfer_ok_inversion (m : DefaultMachine) (fr toA : ActorID)
    (v : TokenAmount) (h : (m.transfer fr toA v).2 = .ok ()) :
    (fr = toA ∧ (m.transfer fr toA v).1 = m) ∨
    (fr ≠ toA ∧ ¬ v < 0 ∧ ∃ fa ta, m.state_tree.get_actor fr = some fa ∧
      ¬ fa.balance < v ∧ m.state_tree.get_actor toA = some ta) := by
  unfold DefaultMachine.transfer at h
  by_cases hv : v < 0
  · simp [hv] at h
  · simp only [if_neg hv] at h
    cases hfa : m.state_tree.get_actor fr with
    | none => simp only [hfa] at h; simp at h
    | some fa =>
      simp only [hfa] at h
      by_cases hb : fa.balance < v
      · simp [hb] at h
      · simp only [if_neg hb] at h
        by_cases he : fr = toA
        · exact Or.inl ⟨he, by
            rw [he] at hfa ⊢
            rw [transfer_eq_self m toA v fa hv hfa hb]⟩
        · simp only [if_neg he] at h
          cases hta : m.state_tree.get_actor toA with
          | none => simp only [hta] at h; simp at h
          | some ta => exact Or.inr ⟨he, hv, fa, ta, rfl, hb, rfl⟩

/-- A successful transfer preserves the sum of all balances. -/
theorem transfer_ok_totalBalance (m : DefaultMachine) (fr toA : ActorID)
    (v : TokenAmount) (h : (m.transfer fr toA v).2 = .ok ()) :
    totalBalance (m.transfer fr toA v).1.state_tree.entries
      = totalBalance m.state_tree.entries := by
  rcases transfer_ok_inversion m fr toA v h with ⟨_, hm⟩ |
    ⟨hne, hv, fa, ta, hfa, hb, hta⟩
  · rw [hm]
  · rw [transfer_eq_move m fr toA v fa ta hv hfa hb hne hta]
    have h2 : getEntry (setEntry m.state_tree.entries fr
        { fa with balance := fa.balance - v }) toA = some ta := by
      rw [getEntry_setEntry_ne _ _ _ _ (fun hc => hne hc.symm)]
      exact hta
    rw [totalBalance_setEntry _ _ _ _ h2, totalBalance_setEntry _ _ _ _ hfa]
    ring

/-- A successful transfer leaves every record other than the sender's and
the receiver's untouched. -/
theorem transfer_ok_frame (m : DefaultMachine) (fr toA : ActorID)
    (v : TokenAmount) (id : ActorID) (hid1 : id ≠ fr) (hid2 : id ≠ toA)
    (h : (m.transfer fr toA v).2 = .ok ()) :
    (m.transfer fr toA v).1.state_tree.get_actor id
      = m.state_tree.get_actor id := by
  rcases transfer_ok_inversion m fr toA v h with ⟨_, hm⟩ |
    ⟨hne, hv, fa, ta, hfa, hb, hta⟩
  · rw [hm]
  · rw [transfer_eq_move m fr toA v fa ta hv hfa hb hne hta]
    show getEntry _ id = getEntry _ id
    rw [getEntry_setEntry_ne _ _ _ _ hid2, getEntry_setEntry_ne _ _ _ _ hid1]

/-- Any all-successful sequence of transfers preserves the sum of all
balances. -/
theorem runTransfers_ok_totalBalance
    (ops : List (ActorID × ActorID × TokenAmount)) :
    ∀ m : DefaultMachine, (runTransfers m ops).2 = .ok () →
      totalBalance (runTransfers m ops).1.state_tree.entries
        = totalBalance m.state_tree.entries := by
  induction ops with
  | nil => intro m _; rfl
  | cons op rest ih =>
    intro m h
    simp only [runTransfers] at h ⊢
    cases hr : (m.transfer op.1 op.2.1 op.2.2).2 with
    | error e => simp only [hr] at h; simp at h
    | ok u =>
      cases u
      simp only [hr] at h ⊢
      exact (ih _ h).trans (transfer_ok_totalBalance m op.1 op.2.1 op.2.2 hr)

/-! ## Claim theorems -/

/-- C1: for every `transfer(from, to, value)` with `value ≥ 0` where the
state tree has no record for the sender, the call fails with the
insufficient-funds error kind (never not-found), regardless of the
receiver and value, and no actor record is changed (the machine is
returned exactly as it was). -/
theorem transfer_missing_sender_insufficient_funds
    (m : DefaultMachine) (fr toA : ActorID) (v : TokenAmount)
    (hv : 0 ≤ v) (h : m.state_tree.get_actor fr = none) :
    m.transfer fr toA v = (m, .error (.syscall .insufficientFunds)) :=
  transfer_eq_missing_sender m fr toA v (not_lt.mpr hv) h

/-- Witness for C1: a concrete missing sender, including the case where
the receiver does not exist either. -/
theorem transfer_missing_sender_insufficient_funds_witness :
    (demoMachine [(1, mkActor 10)]).transfer 3 1 4 =
      (demoMachine [(1, mkActor 10)], .error (.syscall .insufficientFunds)) ∧
    (demoMachine [(1, mkActor 10)]).transfer 3 7 0 =
      (demoMachine [(1, mkActor 10)], .error (.syscall .insufficientFunds)) :=
  ⟨transfer_missing_sender_insufficient_funds _ 3 1 4 (by decide) (by decide),
   transfer_missing_sender_insufficient_funds _ 3 7 0 (by decide) (by decide)⟩

/-- C8: a negative transfer value fails as illegal-argument with no state
change; the check precedes every other check (no hypothesis about the
sender's or receiver's record is needed, so it fires even when either is
missing). -/
theorem transfer_negative_value_illegal_argument
    (m : DefaultMachine) (fr toA : ActorID) (v : TokenAmount) (hv : v < 0) :
    m.transfer fr toA v = (m, .error (.syscall .illegalArgument)) :=
  transfer_eq_neg m fr toA v hv

/-- Witness for C8: `transfer(a, b, -1)` on a machine where neither `a`
nor `b` has a record still fails as illegal-argument. -/
theorem transfer_negative_value_illegal_argument_witness :
    (demoMachine []).transfer 1 2 (-1) =
      (demoMachine [], .error (.syscall .illegalArgument)) :=
  transfer_negative_value_illegal_argument _ 1 2 (-1) (by decide)

/-- C2: a successful transfer preserves the sum of all actor balances and
changes no record other than the sender's and the receiver's; hence any
all-successful sequence of transfers preserves total supply. -/
theorem transfer_conservation (m : DefaultMachine) :
    (∀ (fr toA : ActorID) (v : TokenAmount),
      (m.transfer fr toA v).2 = .ok () →
        totalBalance (m.transfer fr toA v).1.state_tree.entries
          = totalBalance m.state_tree.entries ∧
        ∀ id, id ≠ fr → id ≠ toA →
          (m.transfer fr toA v).1.state_tree.get_actor id
            = m.state_tree.get_actor id) ∧
    (∀ ops : List (ActorID × ActorID × TokenAmount),
      (runTransfers m ops).2 = .ok () →
        totalBalance (runTransfers m ops).1.state_tree.entries
          = totalBalance m.state_tree.entries) :=
  ⟨fun fr toA v h =>
    ⟨transfer_ok_totalBalance m fr toA v h,
     fun id h1 h2 => transfer_ok_frame m fr toA v id h1 h2 h⟩,
   fun ops h => runTransfers_ok_totalBalance ops m h⟩

/-- Witness for C2: a concrete successful transfer and a concrete
all-successful sequence, both preserving the total balance. -/
theorem transfer_conservation_witness :
    totalBalance ((demoMachine [(1, mkActor 10), (2, mkActor 3)]).transfer
        1 2 4).1.state_tree.entries
      = totalBalance
          (demoMachine [(1, mkActor 10), (2, mkActor 3)]).state_tree.entries ∧
    totalBalance (runTransfers (demoMachine [(1, mkActor 10), (2, mkActor 3)])
        [(1, 2, 4), (2, 1, 2)]).1.state_tree.entries
      = totalBalance
          (demoMachine [(1, mkActor 10), (2, mkActor 3)]).state_tree.entries :=
  ⟨((transfer_conservation (demoMachine [(1, mkActor 10), (2, mkActor 3)])).1
      1 2 4 (by rfl)).1,
   (transfer_conservation (demoMachine [(1, mkActor 10), (2, mkActor 3)])).2
      [(1, 2, 4), (2, 1, 2)] (by rfl)⟩

/-- Counterexample for C3 as stated: the claim quantifies over every
value `v` with `a.balance ≥ v`, but at `v = -1` (where `5 ≥ -1`) the
self-transfer does not succeed — the negative-value check fires first
with illegal-argument. -/
theorem self_transfer_counterexample :
    (demoMachine [(1, mkActor 5)]).state_tree.get_actor 1 = some (mkActor 5) ∧
    (-1 : TokenAmount) ≤ (mkActor 5).balance ∧
    ((demoMachine [(1, mkActor 5)]).transfer 1 1 (-1)).2 =
      .error (.syscall .illegalArgument) :=
  ⟨rfl, by decide, rfl⟩

/-- C3 (amended): for an actor `a` with a record and `v ≥ 0`, a
self-transfer succeeds as a no-op when `a.balance ≥ v` and fails as
insufficient-funds when `a.balance < v`; the short-circuit comes after
the negative-value check (a negative `v` fails as illegal-argument even
for `from == to`) and after the sender-existence check (a missing `a`
fails as insufficient-funds). -/
theorem self_transfer_spec (m : DefaultMachine) (a : ActorID)
    (v : TokenAmount) :
    (∀ fa, m.state_tree.get_actor a = some fa → 0 ≤ v →
      (v ≤ fa.balance → m.transfer a a v = (m, .ok ())) ∧
      (fa.balance < v →
        m.transfer a a v = (m, .error (.syscall .insufficientFunds)))) ∧
    (v < 0 → m.transfer a a v = (m, .error (.syscall .illegalArgument))) ∧
    (0 ≤ v → m.state_tree.get_actor a = none →
      m.transfer a a v = (m, .error (.syscall .insufficientFunds))) :=
  ⟨fun fa hfa hv =>
    ⟨fun hb => transfer_eq_self m a v fa (not_lt.mpr hv) hfa (not_lt.mpr hb),
     fun hb => transfer_eq_insufficient m a a v fa (not_lt.mpr hv) hfa hb⟩,
   fun hv => transfer_eq_neg m a a v hv,
   fun hv h => transfer_eq_missing_sender m a a v (not_lt.mpr hv) h⟩

/-- Witness for C3 (amended): both branches at concrete inputs — a
funded self-transfer is a no-op, an under-funded one fails as
insufficient-funds. -/
theorem self_transfer_spec_witness :
    (demoMachine [(1, mkActor 5)]).transfer 1 1 3 =
      (demoMachine [(1, mkActor 5)], .ok ()) ∧
    (demoMachine [(1, mkActor 5)]).transfer 1 1 9 =
      (demoMachine [(1, mkActor 5)], .error (.syscall .insufficientFunds)) :=
  ⟨((self_transfer_spec (demoMachine [(1, mkActor 5)]) 1 3).1
      (mkActor 5) rfl (by decide)).1 (by decide),
   ((self_transfer_spec (demoMachine [(1, mkActor 5)]) 1 9).1
      (mkActor 5) rfl (by decide)).2 (by decide)⟩

/-- Counterexample for C7 as stated: the claim quantifies over every
value with `from.balance ≥ value`, but at `value = -1` (where
`0 ≥ -1`) a transfer to a missing receiver fails as illegal-argument,
not as not-found. -/
theorem transfer_missing_receiver_counterexample :
    (demoMachine [(1, mkActor 0)]).state_tree.get_actor 1 = some (mkActor 0) ∧
    (-1 : TokenAmount) ≤ (mkActor 0).balance ∧
    (demoMachine [(1, mkActor 0)]).state_tree.get_actor 2 = none ∧
    ((demoMachine [(1, mkActor 0)]).transfer 1 2 (-1)).2 ≠
      .error (.syscall .notFound) := by
  refine ⟨rfl, by decide, rfl, ?_⟩
  rw [show ((demoMachine [(1, mkActor 0)]).transfer 1 2 (-1)).2
      = .error (.syscall .illegalArgument) from rfl]
  simp

/-- C7 (amended): for `value ≥ 0`, if the sender exists with
`balance ≥ value`, `from ≠ to`, and the receiver has no record, the
transfer fails with the not-found error kind and no actor record is
changed (the machine is returned exactly as it was). -/
theorem transfer_missing_receiver_not_found (m : DefaultMachine)
    (fr toA : ActorID) (v : TokenAmount) (fa : ActorState) (hv : 0 ≤ v)
    (hfa : m.state_tree.get_actor fr = some fa) (hb : v ≤ fa.balance)
    (hne : fr ≠ toA) (ht : m.state_tree.get_actor toA = none) :
    m.transfer fr toA v = (m, .error (.syscall .notFound)) :=
  transfer_eq_missing_receiver m fr toA v fa (not_lt.mpr hv) hfa
    (not_lt.mpr hb) hne ht

/-- Witness for C7 (amended): a funded sender, a missing receiver. -/
theorem transfer_missing_receiver_not_found_witness :
    (demoMachine [(1, mkActor 10)]).transfer 1 2 4 =
      (demoMachine [(1, mkActor 10)], .error (.syscall .notFound)) :=
  transfer_missing_receiver_not_found _ 1 2 4 (mkActor 10) (by decide) rfl
    (by decide) (by decide) rfl

/-- C6: construction fails, producing no machine, whenever the network
version lies outside the supported closed interval or the underlying
store lacks the initial state root; both checks precede every store
write, so on such a failure the underlying store is returned exactly as
given. -/
theorem construction_validation (d : Bool) (ctx : MachineContext)
    (store : Blockstore) (rnd : List Nat) :
    (¬ supportedVersion ctx.network_version →
      DefaultMachine.new d ctx store rnd = (.error .unsupportedVersion, store)) ∧
    (supportedVersion ctx.network_version →
      store.has ctx.initial_state_root = false →
      DefaultMachine.new d ctx store rnd = (.error .missingInitialRoot, store)) := by
  constructor
  · intro h
    simp [DefaultMachine.new, h]
  · intro h1 h2
    simp [DefaultMachine.new, h1, h2]

/-- Witness for C6: a just-out-of-range version and a root the store does
not hold, each failing with the store untouched. -/
theorem construction_validation_witness :
    DefaultMachine.new true { demoContext with network_version := 17 }
        demoStore [] =
      (.error .unsupportedVersion, demoStore) ∧
    DefaultMachine.new true { demoContext with initial_state_root := 99 }
        demoStore [] =
      (.error .missingInitialRoot, demoStore) :=
  ⟨(construction_validation true _ demoStore []).1 (by decide),
   (construction_validation true _ demoStore []).2 (by decide) rfl⟩

/-- Counterexample for C4 as stated: in a release build (debug assertions
compiled out) a store whose `put` returns an identifier different from
`EMPTY_ARR_CID` does not make construction fail — the mismatch is
silently ignored and a machine is produced. -/
theorem empty_block_mismatch_counterexample :
    faultyStore.cidOf EMPTY_ARRAY_BLOCK ≠ EMPTY_ARR_CID ∧
    exceptIsOk (DefaultMachine.new false demoContext faultyStore [0]).1 = true :=
  ⟨by decide, rfl⟩

/-- C4 (amended): the identifier mismatch for the canonical empty-array
block is checked by a `debug_assert!`: with debug assertions enabled a
mismatch aborts construction as an internal-consistency failure (after
the put has happened); with them disabled (release builds) the check is
compiled out and the put result stands. -/
theorem empty_block_mismatch_assert (ctx : MachineContext)
    (store : Blockstore) (rnd : List Nat)
    (h1 : supportedVersion ctx.network_version)
    (h2 : store.has ctx.initial_state_root = true)
    (h3 : store.cidOf EMPTY_ARRAY_BLOCK ≠ EMPTY_ARR_CID) :
    (DefaultMachine.new true ctx store rnd).1 = .error .assertFailed ∧
    put_empty_blocks true store
      = ((store.put EMPTY_ARRAY_BLOCK).2, some .assertFailed) ∧
    put_empty_blocks false store
      = ((store.put EMPTY_ARRAY_BLOCK).2, none) := by
  have hp : put_empty_blocks true store
      = ((store.put EMPTY_ARRAY_BLOCK).2, some .assertFailed) := by
    simp [put_empty_blocks, Blockstore.put, h3]
  refine ⟨?_, hp, ?_⟩
  · simp [DefaultMachine.new, h1, h2, hp]
  · simp [put_empty_blocks]

/-- Witness for C4 (amended): with debug assertions on, the faulty store
makes construction abort. -/
theorem empty_block_mismatch_assert_witness :
    (DefaultMachine.new true demoContext faultyStore [0]).1
      = .error .assertFailed :=
  (empty_block_mismatch_assert demoContext faultyStore [0] (by decide) rfl
    (by decide)).1

/-- After `put_keyed c d`, the store has `c`. -/
theorem has_put_keyed_self (s : Blockstore) (c : Cid) (d : BlockData) :
    (s.put_keyed c d).has c = true := by
  unfold Blockstore.put_keyed
  by_cases h : s.has c
  · rw [if_pos h]; exact h
  · rw [if_neg h]
    simp [Blockstore.has]

/-- The root identifier `Machine::flush` reports is the reference
identifier of the canonical form of the tree's final contents. -/
theorem flush_root_eq (m : DefaultMachine) :
    (m.flush).2 = .ok (referenceCid
      (.stateRoot (canonicalEntries m.state_tree.entries))) := by
  simp [DefaultMachine.flush, StateTree.flush, BufferedBlockstore.put,
    BufferedBlockstore.flushRoot]

/-- C5: `commit_events` returns no identifier exactly on empty input; on
non-empty input the events are batch-inserted in order at sequential
positions `0, 1, …` into a fresh AMT of bit width `EVENTS_AMT_BITWIDTH`
(= 5), whose root identifier `X` is returned as `Some X` after being
flushed through the buffered store into the underlying store (which
therefore holds `X` immediately, before any machine flush). -/
theorem commit_events_spec (m : DefaultMachine) (events : List StampedEvent) :
    (events = [] → m.commit_events events = (m, .ok none)) ∧
    (events ≠ [] →
      (m.commit_events events).2 =
        .ok (some (referenceCid (.amt EVENTS_AMT_BITWIDTH events.enum))) ∧
      (m.commit_events events).1.state_tree.store.base.has
        (referenceCid (.amt EVENTS_AMT_BITWIDTH events.enum)) = true) := by
  constructor
  · intro h
    subst h
    simp [DefaultMachine.commit_events]
  · intro h
    have hne : events.isEmpty = false := by
      cases events with
      | nil => exact absurd rfl h
      | cons e es => rfl
    have hentries :
        ((Amt.new_with_bit_width EVENTS_AMT_BITWIDTH).batch_set events).entries
          = events.enum := by
      simp [Amt.batch_set, Amt.new_with_bit_width]
    have hbw :
        ((Amt.new_with_bit_width EVENTS_AMT_BITWIDTH).batch_set events).bitWidth
          = EVENTS_AMT_BITWIDTH := rfl
    constructor
    · simp [DefaultMachine.commit_events, hne, Amt.flush,
        BufferedBlockstore.put, BufferedBlockstore.flushRoot, hentries, hbw]
    · simp [DefaultMachine.commit_events, hne, Amt.flush,
        BufferedBlockstore.put, BufferedBlockstore.flushRoot, hentries, hbw,
        has_put_keyed_self]

/-- Witness for C5: the empty list yields no identifier; a concrete
two-event list yields the AMT root of those events in order. -/
theorem commit_events_spec_witness :
    (demoMachine []).commit_events [] = (demoMachine [], .ok none) ∧
    ((demoMachine []).commit_events
        [⟨1, [7]⟩, ⟨2, [9]⟩]).2 =
      .ok (some (referenceCid (.amt EVENTS_AMT_BITWIDTH
        [(0, ⟨1, [7]⟩), (1, ⟨2, [9]⟩)]))) :=
  ⟨(commit_events_spec (demoMachine []) []).1 rfl,
   ((commit_events_spec (demoMachine []) [⟨1, [7]⟩, ⟨2, [9]⟩]).2
      (by decide)).1⟩

/-- C10: `commit_events` never touches the actor records: the resulting
machine differs from the input machine only in its block store, the
staged entries are unchanged, and the state root a subsequent `flush`
would return is identical before and after. -/
theorem commit_events_frame (m : DefaultMachine) (events : List StampedEvent) :
    (m.commit_events events).1 =
      { m with state_tree := { m.state_tree with
          store := (m.commit_events events).1.state_tree.store } } ∧
    (m.commit_events events).1.state_tree.entries = m.state_tree.entries ∧
    ((m.commit_events events).1.flush).2 = (m.flush).2 := by
  have hentries :
      (m.commit_events events).1.state_tree.entries = m.state_tree.entries := by
    by_cases he : events.isEmpty
    · simp [DefaultMachine.commit_events, he]
    · simp only [Bool.not_eq_true] at he
      simp [DefaultMachine.commit_events, he, Amt.flush,
        BufferedBlockstore.put, BufferedBlockstore.flushRoot]
  refine ⟨?_, hentries, ?_⟩
  · by_cases he : events.isEmpty
    · simp [DefaultMachine.commit_events, he]
    · simp only [Bool.not_eq_true] at he
      simp [DefaultMachine.commit_events, he, Amt.flush,
        BufferedBlockstore.put, BufferedBlockstore.flushRoot]
  · rw [flush_root_eq, flush_root_eq, hentries]

/-! ## Determinism: the random nonce reaches only the id string -/

/-- Erase the machine id (the only construction output allowed to depend
on the random nonce). -/
def stripId (m : DefaultMachine) : DefaultMachine := { m with id := "" }

/-- Construction is a function of context and store alone, except for the
id string: two runs with different random nonces agree after erasing the
id, and leave the underlying store identically. -/
theorem new_randomness_only_id (d : Bool) (ctx : MachineContext)
    (store : Blockstore) (r1 r2 : List Nat) :
    (DefaultMachine.new d ctx store r1).1.map stripId
      = (DefaultMachine.new d ctx store r2).1.map stripId ∧
    (DefaultMachine.new d ctx store r1).2
      = (DefaultMachine.new d ctx store r2).2 := by
  constructor <;>
    · simp only [DefaultMachine.new]
      repeat' split
      all_goals rfl

/-- `transfer` reads and writes everything except the id, which passes
through untouched. -/
theorem transfer_strip (m : DefaultMachine) (s : String) (fr toA : ActorID)
    (v : TokenAmount) :
    ({ m with id := s } : DefaultMachine).transfer fr toA v
      = ({ (m.transfer fr toA v).1 with id := s },
         (m.transfer fr toA v).2) := by
  obtain ⟨c, st, ba, i⟩ := m
  simp only [DefaultMachine.transfer]
  repeat' split
  all_goals rfl

/-- `commit_events` reads and writes everything except the id. -/
theorem commit_events_strip (m : DefaultMachine) (s : String)
    (events : List StampedEvent) :
    ({ m with id := s } : DefaultMachine).commit_events events
      = ({ (m.commit_events events).1 with id := s },
         (m.commit_events events).2) := by
  obtain ⟨c, st, ba, i⟩ := m
  simp only [DefaultMachine.commit_events]
  repeat' split
  all_goals rfl

/-- `flush` reads and writes everything except the id. -/
theorem flush_strip (m : DefaultMachine) (s : String) :
    ({ m with id := s } : DefaultMachine).flush
      = ({ (m.flush).1 with id := s }, (m.flush).2) := by
  obtain ⟨c, st, ba, i⟩ := m
  simp only [DefaultMachine.flush]
  repeat' split
  all_goals rfl

/-- Whole call sequences ignore the id: relabelling the machine relabels
the final machine and changes no output. -/
theorem runOps_strip (ops : List MachineOp) :
    ∀ (m : DefaultMachine) (s : String),
      runOps { m with id := s } ops
        = ({ (runOps m ops).1 with id := s }, (runOps m ops).2) := by
  induction ops with
  | nil => intro m s; rfl
  | cons op rest ih =>
    intro m s
    cases op with
    | transferOp fr toA v =>
      simp only [runOps]
      rw [transfer_strip m s fr toA v, ih]
    | commitEventsOp events =>
      simp only [runOps]
      rw [commit_events_strip m s events, ih]
    | flushOp =>
      simp only [runOps]
      rw [flush_strip m s, ih]

/-- C9: machine determinism — two machines constructed from the same
context and store but different random nonces agree on context, state
tree, manifest and final underlying store, and produce bit-identical
outputs (transfer outcomes, flush roots, event-trie roots) and state
trees for every sequence of mutation calls; the nonce influences only
the machine id string. -/
theorem machine_determinism (d : Bool) (ctx : MachineContext)
    (store : Blockstore) (r1 r2 : List Nat) (m1 m2 : DefaultMachine)
    (h1 : (DefaultMachine.new d ctx store r1).1 = .ok m1)
    (h2 : (DefaultMachine.new d ctx store r2).1 = .ok m2) :
    m1.context = m2.context ∧ m1.state_tree = m2.state_tree ∧
    m1.builtin_actors = m2.builtin_actors ∧
    (DefaultMachine.new d ctx store r1).2
      = (DefaultMachine.new d ctx store r2).2 ∧
    ∀ ops : List MachineOp,
      (runOps m1 ops).2 = (runOps m2 ops).2 ∧
      (runOps m1 ops).1.state_tree = (runOps m2 ops).1.state_tree := by
  obtain ⟨hmap, hsnd⟩ := new_randomness_only_id d ctx store r1 r2
  rw [h1, h2] at hmap
  simp only [Except.map, Except.ok.injEq] at hmap
  obtain ⟨c1, st1, ba1, i1⟩ := m1
  obtain ⟨c2, st2, ba2, i2⟩ := m2
  simp only [stripId, DefaultMachine.mk.injEq] at hmap
  obtain ⟨hc, hst, hba, -⟩ := hmap
  subst hc; subst hst; subst hba
  refine ⟨rfl, rfl, rfl, hsnd, fun ops => ?_⟩
  have h := runOps_strip ops ⟨c1, st1, ba1, i2⟩ i1
  have hm : ({ (⟨c1, st1, ba1, i2⟩ : DefaultMachine) with id := i1 }
      : DefaultMachine) = ⟨c1, st1, ba1, i1⟩ := rfl
  rw [hm] at h
  rw [h]
  exact ⟨rfl, rfl⟩

/-- The machine constructed over the demo store with a given nonce
(falling back to a dummy machine, never hit, to extract the `ok`
value). -/
def demoM (rnd : List Nat) : DefaultMachine :=
  ((DefaultMachine.new true demoContext demoStore rnd).1.toOption).getD
    (demoMachine [])

/-- Witness for C9: two constructions differing only in the random
nonce produce identical outputs on a concrete call sequence mixing a
transfer, a flush and an event commitment. -/
theorem machine_determinism_witness :
    (runOps (demoM [0])
        [.transferOp 1 2 4, .flushOp, .commitEventsOp [⟨1, [7]⟩]]).2
      = (runOps (demoM [1])
          [.transferOp 1 2 4, .flushOp, .commitEventsOp [⟨1, [7]⟩]]).2 :=
  ((machine_determinism true demoContext demoStore [0] [1]
      (demoM [0]) (demoM [1]) rfl rfl).2.2.2.2
    [.transferOp 1 2 4, .flushOp, .commitEventsOp [⟨1, [7]⟩]]).1
end RefFvm
